import Mathlib

/-!
Verification of the social-network-bottleneck-detector analytics pipeline.

The repository's algorithms are Cypher queries executed from Python
(`run_algorithms.py` and `backend/app/api/v1/algorithms.py`).  This file
gives a shallow embedding of those queries over an explicit directed
follows-graph and proves properties of the embedded computations.

Modelling conventions:
* User ids are natural numbers; the `FOLLOWS` relationships are a list of
  ordered pairs.  The data model collapses duplicate edges (set semantics),
  and the queries count relationships with `count(DISTINCT ...)`, so degree
  counts and row enumerations go through `List.dedup`.
* A Cypher query of the shape `MATCH (u:User) ... SET u.prop = expr` reads
  all its inputs before any `SET` takes effect (the aggregation barrier in
  each of the embedded queries), so one query execution is modelled as a
  simultaneous update of every matched node, written with `setAll`.
* Unset node properties are modelled with `Option`; Cypher `null` filtering
  (`IS NOT NULL`, comparisons with `null` being non-true) is made explicit.
-/

/-- A directed follows-graph: the `:User` nodes and the `FOLLOWS` edges
(source id, target id). -/
structure Graph where
  nodes : List ℕ
  edges : List (ℕ × ℕ)

/-- Simultaneous write-back of one query: every matched node `u` in `ns`
gets `upd u` (computed from the pre-query snapshot), all other nodes keep
their previous value. -/
def setAll {β : Type} (upd : ℕ → β) (ns : List ℕ) (f : ℕ → β) : ℕ → β :=
  ns.foldl (fun acc u => Function.update acc u (upd u)) f

/-- Distinct-edge out-degree of `u`: `count(DISTINCT outRel)` for
`(u)-[outRel:FOLLOWS]->()` (the target carries no label in the query). -/
def outDegree (g : Graph) (u : ℕ) : ℕ :=
  (g.edges.dedup.filter (fun e => decide (e.1 = u))).length

/-- Distinct-edge in-degree of `u`: `count(DISTINCT inRel)` for
`(u)<-[inRel:FOLLOWS]-()`. -/
def inDegree (g : Graph) (u : ℕ) : ℕ :=
  (g.edges.dedup.filter (fun e => decide (e.2 = u))).length

/-- Follower rows of `u`: one row per distinct relationship matched by
`(u)<-[:FOLLOWS]-(follower:User)`; the `:User` label requires the source to
be a node of the graph. -/
def followerRows (g : Graph) (u : ℕ) : List ℕ :=
  (g.edges.dedup.filter (fun e => decide (e.2 = u ∧ e.1 ∈ g.nodes))).map Prod.fst

/-! ### PageRank (`run_algorithms.py`, "Running PageRank")

The batch script first runs
`MATCH (u:User) WITH count(u) as totalNodes MATCH (u:User)
 SET u.pagerank = 1.0 / totalNodes`
and then executes, in a Python `for i in range(10)` loop, ten separate
queries, each performing
`SET u.pagerank = 0.15 + 0.85 * COALESCE(sum(follower.pagerank), 0)`
over the snapshot taken by that query's aggregation. -/

/-- Initialization query: every node's rank becomes `1/N`. -/
def pagerankInit (g : Graph) : ℕ → ℚ :=
  setAll (fun _ => 1 / (g.nodes.length : ℚ)) g.nodes (fun _ => 0)

/-- One iteration query of the batch script: the follower contributions are
summed without any out-degree divisor. -/
def pagerankIter (g : Graph) (r : ℕ → ℚ) : ℕ → ℚ :=
  setAll (fun u => 0.15 + 0.85 * ((followerRows g u).map r).sum) g.nodes r

/-- The whole PageRank stage of the batch script: init plus ten iterations. -/
def pagerankRun (g : Graph) : ℕ → ℚ :=
  (pagerankIter g)^[10] (pagerankInit g)

/-- Modelled from the spec: one PageRank iteration as the specification
claims it, `rank(u) ← 0.15 + 0.85 * Σ over followers v of
rank(v) / max(out_degree(v), 1)`, dividing by the follower's actual
distinct-edge out-degree.  For comparison with `pagerankIter`. -/
def pagerankClaimIter (g : Graph) (r : ℕ → ℚ) : ℕ → ℚ :=
  setAll (fun u =>
    0.15 + 0.85 * ((followerRows g u).map (fun v => r v / (max (outDegree g v) 1 : ℕ))).sum)
    g.nodes r

/-- Modelled from the spec: the claimed PageRank stage, init to `1/N`
followed by the default twenty iterations.  For comparison with
`pagerankRun`. -/
def pagerankClaimRun (g : Graph) : ℕ → ℚ :=
  (pagerankClaimIter g)^[20] (pagerankInit g)

/-! ### Label propagation (`run_algorithms.py`, "Running Community Detection")

The batch script runs `MATCH (u:User) SET u.community_id = u.id` and then,
in a Python `for i in range(5)` loop, five separate queries, each matching
`(u:User)-[:FOLLOWS]-(neighbor:User)` (both directions, one row per
relationship), grouping the rows by `neighbor.community_id`, ordering the
groups by `count(*)` descending and writing the first group's label.
Cypher leaves the relative order of equal-weight groups unspecified; the
embedding fixes the tie-break to the first label encountered in row order
(out-rows before in-rows, each in deduplicated edge-list order). -/

/-- Neighbor rows of `u` for the undirected match
`(u)-[:FOLLOWS]-(neighbor:User)`: one row per distinct incident
relationship, carrying the node at the other end. -/
def neighborRows (g : Graph) (u : ℕ) : List ℕ :=
  (g.edges.dedup.filter (fun e => decide (e.1 = u ∧ e.2 ∈ g.nodes))).map Prod.snd ++
  (g.edges.dedup.filter (fun e => decide (e.2 = u ∧ e.1 ∈ g.nodes))).map Prod.fst

/-- Weight of label `c` at node `u` under labeling `L`: the `count(*)` of
neighbor rows whose node currently carries label `c`. -/
def labelWeight (g : Graph) (L : ℕ → ℕ) (u c : ℕ) : ℕ :=
  (neighborRows g u).countP (fun v => decide (L v = c))

/-- The candidate labels at `u`: the distinct `neighbor.community_id`
values, in first-seen row order. -/
def candidateLabels (g : Graph) (L : ℕ → ℕ) (u : ℕ) : List ℕ :=
  ((neighborRows g u).map L).dedup

/-- One comparison of the descending-weight scan: the incoming candidate
replaces the current best only on strictly larger weight. -/
def pickStep (w : ℕ → ℕ) : Option ℕ → ℕ → Option ℕ := fun best c =>
  match best with
  | none => some c
  | some b => if w b < w c then some c else best

/-- Pick the dominant label: scan the candidate labels, keeping the current
best and replacing it only on strictly larger weight (so the first
maximum-weight label wins, a fixed rendering of the unspecified Cypher
tie-break). -/
def pickTop (g : Graph) (L : ℕ → ℕ) (u : ℕ) : Option ℕ :=
  (candidateLabels g L u).foldl (pickStep (labelWeight g L u)) none

/-- Nodes matched by one label-propagation query: only nodes with at least
one incident `FOLLOWS` relationship to another `:User` node. -/
def louvainMatched (g : Graph) : List ℕ :=
  g.nodes.filter (fun u => !(neighborRows g u).isEmpty)

/-- One label-propagation query: every matched node simultaneously adopts
its dominant neighbor label; unmatched nodes keep their label. -/
def louvainStep (g : Graph) (L : ℕ → ℕ) : ℕ → ℕ :=
  setAll (fun u => (pickTop g L u).getD (L u)) (louvainMatched g) L

/-- The whole community-detection stage of the batch script: labels start
as the node's own id and five iterations are run. -/
def louvainRun (g : Graph) : ℕ → ℕ :=
  (louvainStep g)^[5] (fun u => u)

/-- Modelled from the spec: the claimed community-detection stage, the same
transition repeated for the default ten iterations.  For comparison with
`louvainRun`. -/
def louvainClaimRun (g : Graph) : ℕ → ℕ :=
  (louvainStep g)^[10] (fun u => u)

/-! ### Approximate betweenness (`_run_betweenness` in
`backend/app/api/v1/algorithms.py`; the batch script's "Setting
Betweenness" query computes the same value) -/

/-- Per-node value of the betweenness query:
`CASE WHEN degree > 0 THEN toFloat(outDegree * inDegree) / (degree * degree)
 ELSE 0.0 END` with `degree = outDegree + inDegree`. -/
def betweennessApprox (g : Graph) (u : ℕ) : ℚ :=
  if 0 < outDegree g u + inDegree g u then
    ((outDegree g u * inDegree g u : ℕ) : ℚ) /
      (((outDegree g u + inDegree g u) * (outDegree g u + inDegree g u) : ℕ) : ℚ)
  else 0

/-- The betweenness stage: `SET u.betweenness_centrality = approxBetweenness`
for every node. -/
def betweennessStage (g : Graph) (bw : ℕ → Option ℚ) : ℕ → Option ℚ :=
  setAll (fun u => some (betweennessApprox g u)) g.nodes bw

/-! ### Bottleneck scoring (`_run_bottleneck_score` in
`backend/app/api/v1/algorithms.py`)

The query matches only nodes with
`u.pagerank IS NOT NULL AND u.betweenness_centrality IS NOT NULL`, counts
the distinct foreign neighbor communities, normalizes by the global maxima
and writes `bridge_score`, `bottleneck_score` and `is_bottleneck` for the
matched nodes.  The batch script's variant differs only in using
`COALESCE(max(...), 1)` for the maxima and `0.3` instead of `0.5` as the
`is_bottleneck` threshold. -/

/-- Distinct neighbors of `u` for `(u)-[:FOLLOWS]-(neighbor:User)`. -/
def bothNeighbors (g : Graph) (u : ℕ) : List ℕ :=
  (neighborRows g u).dedup

/-- Number of distinct `neighbor.community_id` values among neighbors whose
community is set and differs from `u`'s own (a `null` on either side makes
the Cypher comparison non-true, so such rows are filtered out). -/
def bridgedCommunities (g : Graph) (cm : ℕ → Option ℕ) (u : ℕ) : ℕ :=
  ((bothNeighbors g u).filterMap (fun v =>
    match cm v, cm u with
    | some c, some cu => if c ≠ cu then some c else none
    | _, _ => none)).dedup.length

/-- Global maximum of an optional node attribute: Cypher `max(all.attr)`
over every `:User` node, ignoring `null` values and returning `null` when
no value exists. -/
def maxAttr (g : Graph) (f : ℕ → Option ℚ) : Option ℚ :=
  (g.nodes.filterMap f).max?

/-- Normalization used by the query:
`CASE WHEN maxV > 0 THEN v / maxV ELSE 0 END`, where a `null` maximum also
falls through to the `ELSE` branch. -/
def normScore (mx : Option ℚ) (x : ℚ) : ℚ :=
  match mx with
  | some m => if 0 < m then x / m else 0
  | none => 0

/-- Modelled from the spec: the claim's normalization, the value divided by
the global maximum, `0` if that maximum is `0`.  For comparison with
`normScore`. -/
def normScoreSpec (m x : ℚ) : ℚ :=
  if m = 0 then 0 else x / m

/-- Matched nodes of the bottleneck query: both `pagerank` and
`betweenness_centrality` must be present. -/
def bottleneckProcessed (g : Graph) (pr bw : ℕ → Option ℚ) : List ℕ :=
  g.nodes.filter (fun u => (pr u).isSome && (bw u).isSome)

/-- Bridge score written by the query: `toFloat(bridgedCommunities) /
maxBridged` where `maxBridged` is the aggregate `max(5)`, i.e. the constant
`5` — the count is not capped, despite the inline comment. -/
def bridgeScoreOf (g : Graph) (cm : ℕ → Option ℕ) (u : ℕ) : ℚ :=
  (bridgedCommunities g cm u : ℚ) / 5

/-- Modelled from the spec: the claimed bridge score `min(bridged, 5) / 5`
with the count capped at five.  For comparison with `bridgeScoreOf`. -/
def bridgeScoreClaim (g : Graph) (cm : ℕ → Option ℕ) (u : ℕ) : ℚ :=
  ((min (bridgedCommunities g cm u) 5 : ℕ) : ℚ) / 5

/-- Composite bottleneck score written by the query. -/
def bottleneckScoreOf (g : Graph) (pr bw : ℕ → Option ℚ) (cm : ℕ → Option ℕ) (u : ℕ) : ℚ :=
  0.4 * normScore (maxAttr g bw) ((bw u).getD 0) +
  0.3 * normScore (maxAttr g pr) ((pr u).getD 0) +
  0.3 * bridgeScoreOf g cm u

/-- The `SET u.bridge_score = ...` effect of the bottleneck query. -/
def bottleneckStageBridge (g : Graph) (pr bw : ℕ → Option ℚ) (cm : ℕ → Option ℕ)
    (br : ℕ → Option ℚ) : ℕ → Option ℚ :=
  setAll (fun u => some (bridgeScoreOf g cm u)) (bottleneckProcessed g pr bw) br

/-- The `SET u.bottleneck_score = ...` effect of the bottleneck query. -/
def bottleneckStageScore (g : Graph) (pr bw : ℕ → Option ℚ) (cm : ℕ → Option ℕ)
    (bs : ℕ → Option ℚ) : ℕ → Option ℚ :=
  setAll (fun u => some (bottleneckScoreOf g pr bw cm u)) (bottleneckProcessed g pr bw) bs

/-- The `SET u.is_bottleneck = ...` effect of the bottleneck query, with the
API path's `0.5` threshold. -/
def bottleneckStageMark (g : Graph) (pr bw : ℕ → Option ℚ) (cm : ℕ → Option ℕ)
    (ib : ℕ → Option Bool) : ℕ → Option Bool :=
  setAll (fun u => some (decide (0.5 < bottleneckScoreOf g pr bw cm u)))
    (bottleneckProcessed g pr bw) ib

/-! ### The run endpoint (`run_algorithm` in
`backend/app/api/v1/algorithms.py`) -/

/-- The five algorithm names of `AVAILABLE_ALGORITHMS`. -/
inductive AlgoName where
  | pagerank
  | betweenness
  | louvain
  | bottleneck
  | degree
deriving DecidableEq

def namePagerank : String := "pagerank"

def nameBetweenness : String := "betweenness"

def nameLouvain : String := "louvain"

def nameBottleneck : String := "bottleneck"

def nameDegree : String := "degree"

/-- The keys of the `AVAILABLE_ALGORITHMS` dictionary. -/
def AVAILABLE_ALGORITHMS : List String :=
  [namePagerank, nameBetweenness, nameLouvain, nameBottleneck, nameDegree]

/-- Membership test plus dispatch target for an algorithm name. -/
def parseAlgorithm (s : String) : Option AlgoName :=
  if s = namePagerank then some AlgoName.pagerank
  else if s = nameBetweenness then some AlgoName.betweenness
  else if s = nameLouvain then some AlgoName.louvain
  else if s = nameBottleneck then some AlgoName.bottleneck
  else if s = nameDegree then some AlgoName.degree
  else none

/-- The dict a `_run_*` helper returns (every return path carries both a
node count and a message). -/
structure HandlerResult where
  nodes_processed : ℕ
  message : String

/-- The `AlgorithmRunResponse` body (execution time omitted: wall-clock
time is outside the embedding). -/
structure AlgorithmRunResponse where
  algorithm : String
  status : String
  nodes_processed : ℕ
  message : Option String
deriving DecidableEq

def statusCompleted : String := "completed"

def statusFailed : String := "failed"

def unknownAlgorithmDetail : String := "Unknown algorithm: "

/-- An `HTTPException` escaping the endpoint body. -/
inductive ApiError where
  | httpException (statusCode : ℕ) (detail : String)
deriving DecidableEq

/-- The endpoint: an unknown name raises `HTTPException(400, ...)` before
anything runs; a known name dispatches to its handler inside
`try`/`except`, wrapping success as status `completed` and any handler
exception as status `failed` with the exception text as message.  The
second component records which handlers were executed. -/
def run_algorithm (name : String) (handler : AlgoName → Except String HandlerResult) :
    Except ApiError AlgorithmRunResponse × List AlgoName :=
  match parseAlgorithm name with
  | none => (Except.error (ApiError.httpException 400 (unknownAlgorithmDetail ++ name)), [])
  | some a =>
      match handler a with
      | Except.ok r =>
          (Except.ok ⟨name, statusCompleted, r.nodes_processed, some r.message⟩, [a])
      | Except.error e =>
          (Except.ok ⟨name, statusFailed, 0, some e⟩, [a])

def msgBottleneckDone : String := "Bottleneck scores calculated"

/-- The `_run_bottleneck_score` handler seen from the endpoint: its single
aggregate query always returns one row (count `0` when nothing matches the
`IS NOT NULL` filter), so the handler always succeeds with the matched-node
count and a fixed message — it never raises. -/
def bottleneckHandler (g : Graph) (pr bw : ℕ → Option ℚ) : Except String HandlerResult :=
  Except.ok ⟨(bottleneckProcessed g pr bw).length, msgBottleneckDone⟩

/-! ### The top-bottlenecks read query (`get_top_bottlenecks` in
`backend/app/services/neo4j_service.py`) -/

/-- The read query: keep the users whose `bottleneck_score` is set, order
them by that score descending, and return the first `limit` of them
(each row carrying the user and its score). -/
def get_top_bottlenecks (nodes : List ℕ) (score : ℕ → Option ℚ) (limit : ℕ) :
    List (ℕ × ℚ) :=
  ((nodes.filterMap (fun u => (score u).map (fun s => (u, s)))).mergeSort
    (fun a b => decide (b.2 ≤ a.2))).take limit

/-! ### Concrete instances used by counterexamples and witnesses -/

/-- Two mutually reachable users joined by a single follow edge. -/
def gSwap : Graph := ⟨[0, 1], [(0, 1)]⟩

/-- One user following two others. -/
def gChain : Graph := ⟨[0, 1, 2], [(0, 1), (0, 2)]⟩

/-- A hub following six users. -/
def gStar : Graph := ⟨[0, 1, 2, 3, 4, 5, 6], [(0, 1), (0, 2), (0, 3), (0, 4), (0, 5), (0, 6)]⟩

/-- A fresh two-user graph (used before any algorithm has run). -/
def gFresh : Graph := ⟨[0, 1], [(0, 1)]⟩

/-- A small two-user graph with attributes fully set. -/
def gPair : Graph := ⟨[0, 1], [(0, 1)]⟩

/-- Every user in its own community. -/
def cmOwn : ℕ → Option ℕ := fun u => some u

/-- Constant attribute value `1` on every user. -/
def attrOne : ℕ → Option ℚ := fun _ => some 1

/-- Attribute never set. -/
def noScore : ℕ → Option ℚ := fun _ => none

/-- Community attribute never set. -/
def noCm : ℕ → Option ℕ := fun _ => none

/-- Boolean attribute never set. -/
def noMark : ℕ → Option Bool := fun _ => none

/-- Score table with only user `0` analyzed. -/
def scoreOnlyZero : ℕ → Option ℚ := fun u => if u = 0 then some 1 else none

/-- A handler environment that always succeeds. -/
def handlerStub : AlgoName → Except String HandlerResult :=
  fun _ => Except.ok ⟨0, msgBottleneckDone⟩

/-- A name outside `AVAILABLE_ALGORITHMS`. -/
def nameUnknown : String := "gds"

/-! ### Evaluation tables for PageRank on `gChain`

`gChain` stabilizes after two iterations, on both the embedded update and
the claimed update, so the ten- and twenty-iteration results are computed
through these tables and a fixed-point argument. -/

/-- Ranks after the init query on `gChain`. -/
def tInit : ℕ → ℚ := fun u =>
  if u = 0 then 1/3 else if u = 1 then 1/3 else if u = 2 then 1/3 else 0

/-- Ranks after one batch-script iteration on `gChain`. -/
def tMid : ℕ → ℚ := fun u =>
  if u = 0 then 3/20 else if u = 1 then 13/30 else if u = 2 then 13/30 else 0

/-- The fixed point of the batch-script iteration on `gChain`. -/
def tFix : ℕ → ℚ := fun u =>
  if u = 0 then 3/20 else if u = 1 then 111/400 else if u = 2 then 111/400 else 0

/-- Ranks after one claimed (out-degree dividing) iteration on `gChain`. -/
def sMid : ℕ → ℚ := fun u =>
  if u = 0 then 3/20 else if u = 1 then 7/24 else if u = 2 then 7/24 else 0

/-- The fixed point of the claimed iteration on `gChain`. -/
def sFix : ℕ → ℚ := fun u =>
  if u = 0 then 3/20 else if u = 1 then 171/800 else if u = 2 then 171/800 else 0

/-! ## Theorems -/

theorem setAll_eq {β : Type} (upd : ℕ → β) (ns : List ℕ) (f : ℕ → β) (u : ℕ) :
    setAll upd ns f u = if u ∈ ns then upd u else f u := by
  induction ns generalizing f with
  | nil => simp [setAll]
  | cons a l ih =>
      show setAll upd l (Function.update f a (upd a)) u = _
      rw [ih]
      by_cases hl : u ∈ l
      · simp [hl, List.mem_cons]
      · by_cases ha : u = a
        · subst ha; simp [hl, Function.update_apply]
        · simp [hl, ha, Function.update_apply, List.mem_cons]

theorem run_algorithm_known (name : String) (a : AlgoName)
    (h : parseAlgorithm name = some a) (handler : AlgoName → Except String HandlerResult) :
    ∃ resp, run_algorithm name handler = (Except.ok resp, [a]) ∧
      resp.algorithm = name ∧
      (resp.status = statusCompleted ∨ resp.status = statusFailed) ∧
      resp.message.isSome := by
  unfold run_algorithm
  rw [h]
  cases hh : handler a with
  | ok r =>
      simp only [hh]
      exact ⟨_, rfl, rfl, Or.inl rfl, rfl⟩
  | error e =>
      simp only [hh]
      exact ⟨_, rfl, rfl, Or.inr rfl, rfl⟩

theorem parseAlgorithm_none (name : String) (h : name ∉ AVAILABLE_ALGORITHMS) :
    parseAlgorithm name = none := by
  have h1 : name ≠ namePagerank := fun he => h (by rw [he]; simp [AVAILABLE_ALGORITHMS])
  have h2 : name ≠ nameBetweenness := fun he => h (by rw [he]; simp [AVAILABLE_ALGORITHMS])
  have h3 : name ≠ nameLouvain := fun he => h (by rw [he]; simp [AVAILABLE_ALGORITHMS])
  have h4 : name ≠ nameBottleneck := fun he => h (by rw [he]; simp [AVAILABLE_ALGORITHMS])
  have h5 : name ≠ nameDegree := fun he => h (by rw [he]; simp [AVAILABLE_ALGORITHMS])
  simp [parseAlgorithm, h1, h2, h3, h4, h5]

/-- C4: every run of the endpoint with a known algorithm name returns a
result object whose status is `completed` or `failed` and which carries a
message, whatever the dispatched handler does (its failures become data,
not exceptions); a name outside the five available algorithms is rejected
with the `Unknown algorithm` 400 client error and no handler is executed. -/
theorem run_algorithm_contract (name : String)
    (handler : AlgoName → Except String HandlerResult) :
    (name ∈ AVAILABLE_ALGORITHMS →
      ∃ resp, (run_algorithm name handler).1 = Except.ok resp ∧
        resp.algorithm = name ∧
        (resp.status = statusCompleted ∨ resp.status = statusFailed) ∧
        resp.message.isSome) ∧
    (name ∉ AVAILABLE_ALGORITHMS →
      (run_algorithm name handler).1 =
        Except.error (ApiError.httpException 400 (unknownAlgorithmDetail ++ name)) ∧
      (run_algorithm name handler).2 = []) := by
  constructor
  · intro hmem
    have hparse : ∃ a, parseAlgorithm name = some a := by
      simp only [AVAILABLE_ALGORITHMS, List.mem_cons, List.mem_singleton,
        List.not_mem_nil, or_false] at hmem
      rcases hmem with h | h | h | h | h <;> subst h
      · exact ⟨AlgoName.pagerank, by decide⟩
      · exact ⟨AlgoName.betweenness, by decide⟩
      · exact ⟨AlgoName.louvain, by decide⟩
      · exact ⟨AlgoName.bottleneck, by decide⟩
      · exact ⟨AlgoName.degree, by decide⟩
    rcases hparse with ⟨a, ha⟩
    rcases run_algorithm_known name a ha handler with ⟨resp, hr, h1, h2, h3⟩
    exact ⟨resp, by rw [hr], h1, h2, h3⟩
  · intro hmem
    have := parseAlgorithm_none name hmem
    unfold run_algorithm
    rw [this]
    exact ⟨rfl, rfl⟩

/-- Witness for C4 at the concrete name `pagerank` and at a concrete
unknown name. -/
theorem run_algorithm_contract_witness :
    (∃ resp, (run_algorithm namePagerank handlerStub).1 = Except.ok resp ∧
      resp.algorithm = namePagerank ∧
      (resp.status = statusCompleted ∨ resp.status = statusFailed) ∧
      resp.message.isSome) ∧
    ((run_algorithm nameUnknown handlerStub).1 =
        Except.error (ApiError.httpException 400 (unknownAlgorithmDetail ++ nameUnknown)) ∧
      (run_algorithm nameUnknown handlerStub).2 = []) :=
  ⟨(run_algorithm_contract namePagerank handlerStub).1 (by decide),
   (run_algorithm_contract nameUnknown handlerStub).2 (by decide)⟩

theorem quadratic_bound (a b : ℕ) (h : 0 < a + b) :
    0 ≤ ((a * b : ℕ) : ℚ) / (((a + b) * (a + b) : ℕ) : ℚ) ∧
    ((a * b : ℕ) : ℚ) / (((a + b) * (a + b) : ℕ) : ℚ) ≤ 1/4 ∧
    (((a * b : ℕ) : ℚ) / (((a + b) * (a + b) : ℕ) : ℚ) = 1/4 ↔ a = b ∧ 0 < a) := by
  have hq : (0 : ℚ) < (((a + b) * (a + b) : ℕ) : ℚ) := by
    exact_mod_cast Nat.mul_pos h h
  refine ⟨div_nonneg (by positivity) hq.le, ?_, ?_⟩
  · rw [div_le_iff₀ hq]
    push_cast
    nlinarith [sq_nonneg ((a : ℚ) - b)]
  · constructor
    · intro he
      rw [div_eq_iff (ne_of_gt hq)] at he
      push_cast at he
      have h2 : ((a : ℚ) - b) ^ 2 = 0 := by linear_combination (-4 : ℚ) * he
      have h3 : (a : ℚ) = b := sub_eq_zero.mp (sq_eq_zero_iff.mp h2)
      have h4 : a = b := by exact_mod_cast h3
      exact ⟨h4, by omega⟩
    · rintro ⟨rfl, hpos⟩
      rw [div_eq_iff (ne_of_gt hq)]
      push_cast
      ring

/-- C8: the approximate betweenness value lies in `[0, 1/4]`, and it equals
the maximum `1/4` exactly when the out-degree and in-degree are equal and
positive. -/
theorem betweenness_bounds (g : Graph) (u : ℕ) :
    0 ≤ betweennessApprox g u ∧ betweennessApprox g u ≤ 1/4 ∧
      (betweennessApprox g u = 1/4 ↔
        outDegree g u = inDegree g u ∧ 0 < outDegree g u) := by
  unfold betweennessApprox
  by_cases h : 0 < outDegree g u + inDegree g u
  · rw [if_pos h]
    exact quadratic_bound _ _ h
  · rw [if_neg h]
    refine ⟨le_refl 0, by norm_num, ?_⟩
    constructor
    · intro h0
      norm_num at h0
    · rintro ⟨he, hpos⟩
      omega

/-- C7: after the betweenness stage runs, every node's
`betweenness_centrality` equals `(out_degree * in_degree) / (out_degree +
in_degree)^2` when the total degree is positive, and `0` otherwise, with
the degrees being distinct-edge counts. -/
theorem betweenness_stage_formula (g : Graph) (bw : ℕ → Option ℚ) (u : ℕ)
    (hu : u ∈ g.nodes) :
    betweennessStage g bw u =
      some (if 0 < outDegree g u + inDegree g u then
          ((outDegree g u : ℚ) * (inDegree g u : ℚ)) /
            ((outDegree g u : ℚ) + (inDegree g u : ℚ)) ^ 2
        else 0) := by
  unfold betweennessStage
  rw [setAll_eq, if_pos hu]
  congr 1
  unfold betweennessApprox
  by_cases h : 0 < outDegree g u + inDegree g u
  · rw [if_pos h, if_pos h]
    push_cast
    ring
  · rw [if_neg h, if_neg h]

/-- Witness for C7 on the concrete graph `gPair` at node `0`. -/
theorem betweenness_stage_formula_witness :
    0 ∈ gPair.nodes ∧
    betweennessStage gPair noScore 0 =
      some (if 0 < outDegree gPair 0 + inDegree gPair 0 then
          ((outDegree gPair 0 : ℚ) * (inDegree gPair 0 : ℚ)) /
            ((outDegree gPair 0 : ℚ) + (inDegree gPair 0 : ℚ)) ^ 2
        else 0) :=
  ⟨by decide, betweenness_stage_formula gPair noScore 0 (by decide)⟩

/-- C10: the top-bottlenecks read query returns at most `limit` rows, every
returned row is a graph user whose `bottleneck_score` is set to exactly the
returned score, the rows come sorted by score in non-increasing order, and
a user whose score was never written is never included. -/
theorem get_top_bottlenecks_spec (nodes : List ℕ) (score : ℕ → Option ℚ) (limit : ℕ) :
    (get_top_bottlenecks nodes score limit).length ≤ limit ∧
    (∀ p ∈ get_top_bottlenecks nodes score limit, p.1 ∈ nodes ∧ score p.1 = some p.2) ∧
    List.Pairwise (fun a b : ℕ × ℚ => b.2 ≤ a.2) (get_top_bottlenecks nodes score limit) ∧
    (∀ u, score u = none → ∀ p ∈ get_top_bottlenecks nodes score limit, p.1 ≠ u) := by
  have hmem : ∀ p ∈ get_top_bottlenecks nodes score limit,
      p.1 ∈ nodes ∧ score p.1 = some p.2 := by
    intro p hp
    have hp' : p ∈ ((nodes.filterMap (fun u => (score u).map (fun s => (u, s)))).mergeSort
        (fun a b => decide (b.2 ≤ a.2))).take limit := hp
    have h1 : p ∈ (nodes.filterMap (fun u => (score u).map (fun s => (u, s)))).mergeSort
        (fun a b => decide (b.2 ≤ a.2)) :=
      List.Sublist.mem hp' (List.take_sublist _ _)
    have h2 : p ∈ nodes.filterMap (fun u => (score u).map (fun s => (u, s))) :=
      List.mem_mergeSort.mp h1
    rcases List.mem_filterMap.mp h2 with ⟨u, hu, hmap⟩
    cases hs : score u with
    | none => rw [hs] at hmap; simp at hmap
    | some s =>
        rw [hs] at hmap
        simp only [Option.map_some', Option.some.injEq] at hmap
        rw [← hmap]
        exact ⟨hu, hs⟩
  refine ⟨?_, hmem, ?_, ?_⟩
  · unfold get_top_bottlenecks
    rw [List.length_take]
    exact min_le_left _ _
  · have hsorted : List.Pairwise
        (fun a b : ℕ × ℚ => (fun a b : ℕ × ℚ => decide (b.2 ≤ a.2)) a b = true)
        ((nodes.filterMap (fun u => (score u).map (fun s => (u, s)))).mergeSort
          (fun a b => decide (b.2 ≤ a.2))) :=
      List.sorted_mergeSort
        (by
          intro a b c hab hbc
          simp only [decide_eq_true_eq] at hab hbc ⊢
          exact le_trans hbc hab)
        (by
          intro a b
          simp only [Bool.or_eq_true, decide_eq_true_eq]
          exact le_total b.2 a.2)
        _
    have hsorted' : List.Pairwise (fun a b : ℕ × ℚ => b.2 ≤ a.2)
        ((nodes.filterMap (fun u => (score u).map (fun s => (u, s)))).mergeSort
          (fun a b => decide (b.2 ≤ a.2))) :=
      hsorted.imp (fun h => by simpa using h)
    exact List.Pairwise.sublist (List.take_sublist _ _) hsorted'
  · intro u hu p hp heq
    rcases hmem p hp with ⟨_, hscore⟩
    rw [heq, hu] at hscore
    exact Option.noConfusion hscore

/-- Witness for C10 on a concrete two-user store where only user `0` has a
score, with limit `1`. -/
theorem get_top_bottlenecks_spec_witness :
    (get_top_bottlenecks [0, 1] scoreOnlyZero 1).length ≤ 1 ∧
    (∀ p ∈ get_top_bottlenecks [0, 1] scoreOnlyZero 1,
      p.1 ∈ [0, 1] ∧ scoreOnlyZero p.1 = some p.2) ∧
    List.Pairwise (fun a b : ℕ × ℚ => b.2 ≤ a.2) (get_top_bottlenecks [0, 1] scoreOnlyZero 1) ∧
    (∀ u, scoreOnlyZero u = none →
      ∀ p ∈ get_top_bottlenecks [0, 1] scoreOnlyZero 1, p.1 ≠ u) :=
  get_top_bottlenecks_spec [0, 1] scoreOnlyZero 1

theorem followerRows_subset (g : Graph) (u v : ℕ) (hv : v ∈ followerRows g u) :
    v ∈ g.nodes := by
  unfold followerRows at hv
  rcases List.mem_map.mp hv with ⟨e, he, rfl⟩
  exact (of_decide_eq_true (List.mem_filter.mp he).2).2

theorem pagerankIter_lower (g : Graph) (r : ℕ → ℚ)
    (hr : ∀ v ∈ g.nodes, 0 ≤ r v) (u : ℕ) (hu : u ∈ g.nodes) :
    0.15 ≤ pagerankIter g r u := by
  unfold pagerankIter
  rw [setAll_eq, if_pos hu]
  have hsum : 0 ≤ ((followerRows g u).map r).sum := by
    apply List.sum_nonneg
    intro x hx
    rcases List.mem_map.mp hx with ⟨v, hv, rfl⟩
    exact hr v (followerRows_subset g u v hv)
  nlinarith

theorem pagerankIter_nonneg (g : Graph) (r : ℕ → ℚ)
    (hr : ∀ v ∈ g.nodes, 0 ≤ r v) : ∀ v ∈ g.nodes, 0 ≤ pagerankIter g r v :=
  fun v hv => le_trans (by norm_num) (pagerankIter_lower g r hr v hv)

theorem pagerankInit_nonneg (g : Graph) : ∀ v ∈ g.nodes, 0 ≤ pagerankInit g v := by
  intro v hv
  unfold pagerankInit
  rw [setAll_eq, if_pos hv]
  positivity

theorem pagerankIterate_nonneg (g : Graph) (n : ℕ) :
    ∀ v ∈ g.nodes, 0 ≤ (pagerankIter g)^[n] (pagerankInit g) v := by
  induction n with
  | zero => exact pagerankInit_nonneg g
  | succ n ih =>
      intro v hv
      rw [Function.iterate_succ_apply']
      exact pagerankIter_nonneg g _ ih v hv

/-- C9: after the PageRank stage completes, every node's rank is at least
the base term `0.15 = 1 - damping`, because each iteration assigns the base
term plus a non-negative damped sum of follower contributions. -/
theorem pagerank_floor (g : Graph) (u : ℕ) (hu : u ∈ g.nodes) :
    0.15 ≤ pagerankRun g u := by
  unfold pagerankRun
  rw [show (10 : ℕ) = 1 + 9 from rfl, Function.iterate_add_apply]
  exact pagerankIter_lower g _ (pagerankIterate_nonneg g 9) u hu

/-- Witness for C9 on the concrete graph `gChain` at node `0`. -/
theorem pagerank_floor_witness : 0 ∈ gChain.nodes ∧ 0.15 ≤ pagerankRun gChain 0 :=
  ⟨by decide, pagerank_floor gChain 0 (by decide)⟩

theorem followerRows_gChain_zero : followerRows gChain 0 = [] := by decide

theorem followerRows_gChain_one : followerRows gChain 1 = [0] := by decide

theorem followerRows_gChain_two : followerRows gChain 2 = [0] := by decide

theorem outDegree_gChain_zero : outDegree gChain 0 = 2 := by decide

theorem pagerankIter_gChain (r : ℕ → ℚ) :
    pagerankIter gChain r = fun u =>
      if u = 0 then 3/20 else if u = 1 then 0.15 + 0.85 * r 0
      else if u = 2 then 0.15 + 0.85 * r 0 else r u := by
  funext u
  unfold pagerankIter
  rw [setAll_eq]
  by_cases h0 : u = 0
  · subst h0
    rw [if_pos (by decide), followerRows_gChain_zero]
    norm_num
  · by_cases h1 : u = 1
    · subst h1
      rw [if_pos (by decide), followerRows_gChain_one]
      simp [h0]
    · by_cases h2 : u = 2
      · subst h2
        rw [if_pos (by decide), followerRows_gChain_two]
        simp [h0, h1]
      · have hn : u ∉ gChain.nodes := by simp [gChain, h0, h1, h2]
        rw [if_neg hn]
        simp [h0, h1, h2]

theorem pagerankClaimIter_gChain (r : ℕ → ℚ) :
    pagerankClaimIter gChain r = fun u =>
      if u = 0 then 3/20 else if u = 1 then 0.15 + 0.85 * (r 0 / 2)
      else if u = 2 then 0.15 + 0.85 * (r 0 / 2) else r u := by
  funext u
  unfold pagerankClaimIter
  rw [setAll_eq]
  by_cases h0 : u = 0
  · subst h0
    rw [if_pos (by decide), followerRows_gChain_zero]
    norm_num
  · by_cases h1 : u = 1
    · subst h1
      rw [if_pos (by decide), followerRows_gChain_one]
      simp only [List.map_cons, List.map_nil, List.sum_cons, List.sum_nil,
        outDegree_gChain_zero]
      rw [show ((2 : ℕ) ⊔ 1) = 2 from by decide]
      simp [h0]
    · by_cases h2 : u = 2
      · subst h2
        rw [if_pos (by decide), followerRows_gChain_two]
        simp only [List.map_cons, List.map_nil, List.sum_cons, List.sum_nil,
          outDegree_gChain_zero]
        rw [show ((2 : ℕ) ⊔ 1) = 2 from by decide]
        simp [h0, h1]
      · have hn : u ∉ gChain.nodes := by simp [gChain, h0, h1, h2]
        rw [if_neg hn]
        simp [h0, h1, h2]

theorem pagerankInit_gChain : pagerankInit gChain = tInit := by
  funext u
  unfold pagerankInit tInit
  rw [setAll_eq]
  by_cases h0 : u = 0
  · subst h0; norm_num [gChain]
  · by_cases h1 : u = 1
    · subst h1; norm_num [gChain]
    · by_cases h2 : u = 2
      · subst h2; norm_num [gChain]
      · have hn : u ∉ gChain.nodes := by simp [gChain, h0, h1, h2]
        rw [if_neg hn]
        simp [h0, h1, h2]

theorem pagerankIter_tInit : pagerankIter gChain tInit = tMid := by
  rw [pagerankIter_gChain]
  funext u
  unfold tInit tMid
  by_cases h0 : u = 0
  · subst h0; norm_num
  · by_cases h1 : u = 1
    · subst h1; norm_num
    · by_cases h2 : u = 2
      · subst h2; norm_num
      · simp [h0, h1, h2]

theorem pagerankIter_tMid : pagerankIter gChain tMid = tFix := by
  rw [pagerankIter_gChain]
  funext u
  unfold tMid tFix
  by_cases h0 : u = 0
  · subst h0; norm_num
  · by_cases h1 : u = 1
    · subst h1; norm_num
    · by_cases h2 : u = 2
      · subst h2; norm_num
      · simp [h0, h1, h2]

theorem pagerankIter_tFix : pagerankIter gChain tFix = tFix := by
  rw [pagerankIter_gChain]
  funext u
  unfold tFix
  by_cases h0 : u = 0
  · subst h0; norm_num
  · by_cases h1 : u = 1
    · subst h1; norm_num
    · by_cases h2 : u = 2
      · subst h2; norm_num
      · simp [h0, h1, h2]

theorem pagerankClaimIter_tInit : pagerankClaimIter gChain tInit = sMid := by
  rw [pagerankClaimIter_gChain]
  funext u
  unfold tInit sMid
  by_cases h0 : u = 0
  · subst h0; norm_num
  · by_cases h1 : u = 1
    · subst h1; norm_num
    · by_cases h2 : u = 2
      · subst h2; norm_num
      · simp [h0, h1, h2]

theorem pagerankClaimIter_sMid : pagerankClaimIter gChain sMid = sFix := by
  rw [pagerankClaimIter_gChain]
  funext u
  unfold sMid sFix
  by_cases h0 : u = 0
  · subst h0; norm_num
  · by_cases h1 : u = 1
    · subst h1; norm_num
    · by_cases h2 : u = 2
      · subst h2; norm_num
      · simp [h0, h1, h2]

theorem pagerankClaimIter_sFix : pagerankClaimIter gChain sFix = sFix := by
  rw [pagerankClaimIter_gChain]
  funext u
  unfold sFix
  by_cases h0 : u = 0
  · subst h0; norm_num
  · by_cases h1 : u = 1
    · subst h1; norm_num
    · by_cases h2 : u = 2
      · subst h2; norm_num
      · simp [h0, h1, h2]

theorem pagerankRun_gChain : pagerankRun gChain = tFix := by
  have h2 : (pagerankIter gChain)^[2] (pagerankInit gChain) = tFix := by
    show pagerankIter gChain (pagerankIter gChain (pagerankInit gChain)) = tFix
    rw [pagerankInit_gChain, pagerankIter_tInit, pagerankIter_tMid]
  unfold pagerankRun
  rw [show (10 : ℕ) = 8 + 2 from rfl, Function.iterate_add_apply, h2]
  exact Function.iterate_fixed pagerankIter_tFix 8

theorem pagerankClaimRun_gChain : pagerankClaimRun gChain = sFix := by
  have h2 : (pagerankClaimIter gChain)^[2] (pagerankInit gChain) = sFix := by
    show pagerankClaimIter gChain (pagerankClaimIter gChain (pagerankInit gChain)) = sFix
    rw [pagerankInit_gChain, pagerankClaimIter_tInit, pagerankClaimIter_sMid]
  unfold pagerankClaimRun
  rw [show (20 : ℕ) = 18 + 2 from rfl, Function.iterate_add_apply, h2]
  exact Function.iterate_fixed pagerankClaimIter_sFix 18

/-- Counterexample for C3: on `gChain` (user `0` following users `1` and
`2`), the PageRank stage of the code yields `rank(1) = 111/400 = 0.2775`
(ten iterations, follower contributions not divided by out-degree), while
the claimed computation (twenty iterations, contributions divided by
`max(out_degree, 1)`) yields `171/800 = 0.21375`; the two disagree. -/
theorem pagerank_claim_counterexample :
    pagerankRun gChain 1 = 111/400 ∧ pagerankClaimRun gChain 1 = 171/800 ∧
      ¬ pagerankRun gChain 1 = pagerankClaimRun gChain 1 := by
  rw [pagerankRun_gChain, pagerankClaimRun_gChain]
  refine ⟨by norm_num [tFix], by norm_num [sFix], by norm_num [tFix, sFix]⟩

/-- C3 (amended): the batch PageRank stage initializes every node's rank to
`1/N` and then performs ten iterations, each setting `rank(u) = 0.15 +
0.85 * (sum over followers v of u of rank(v))`, with no out-degree
divisor. -/
theorem pagerank_stage_characterization (g : Graph) (u : ℕ) (hu : u ∈ g.nodes) (n : ℕ) :
    pagerankInit g u = 1 / (g.nodes.length : ℚ) ∧
    (pagerankIter g)^[n + 1] (pagerankInit g) u =
      0.15 + 0.85 * ((followerRows g u).map ((pagerankIter g)^[n] (pagerankInit g))).sum ∧
    pagerankRun g = (pagerankIter g)^[10] (pagerankInit g) := by
  refine ⟨?_, ?_, rfl⟩
  · unfold pagerankInit
    rw [setAll_eq, if_pos hu]
  · rw [Function.iterate_succ_apply']
    show setAll
        (fun w => 0.15 + 0.85 * ((followerRows g w).map ((pagerankIter g)^[n] (pagerankInit g))).sum)
        g.nodes ((pagerankIter g)^[n] (pagerankInit g)) u = _
    rw [setAll_eq, if_pos hu]

/-- Witness for C3's amended statement on `gChain` at node `1`. -/
theorem pagerank_stage_characterization_witness :
    1 ∈ gChain.nodes ∧
    (pagerankInit gChain 1 = 1 / (gChain.nodes.length : ℚ) ∧
      (pagerankIter gChain)^[1] (pagerankInit gChain) 1 =
        0.15 + 0.85 * ((followerRows gChain 1).map
          ((pagerankIter gChain)^[0] (pagerankInit gChain))).sum ∧
      pagerankRun gChain = (pagerankIter gChain)^[10] (pagerankInit gChain)) :=
  ⟨by decide, pagerank_stage_characterization gChain 1 (by decide) 0⟩

theorem pickFold_spec (w : ℕ → ℕ) (l : List ℕ) (b0 : ℕ) :
    ∃ b, l.foldl (pickStep w) (some b0) = some b ∧
      (b = b0 ∨ b ∈ l) ∧ w b0 ≤ w b ∧ ∀ c ∈ l, w c ≤ w b := by
  induction l generalizing b0 with
  | nil =>
      refine ⟨b0, rfl, Or.inl rfl, le_refl _, ?_⟩
      intro c hc
      cases hc
  | cons c l ih =>
      rw [List.foldl_cons,
        show pickStep w (some b0) c = if w b0 < w c then some c else some b0 from rfl]
      by_cases h : w b0 < w c
      · rw [if_pos h]
        rcases ih c with ⟨b, hf, hm, hw, hall⟩
        refine ⟨b, hf, ?_, le_trans (le_of_lt h) hw, ?_⟩
        · rcases hm with rfl | hm
          · exact Or.inr (List.mem_cons_self _ _)
          · exact Or.inr (List.mem_cons_of_mem _ hm)
        · intro d hd
          rcases List.mem_cons.mp hd with rfl | hd
          · exact hw
          · exact hall d hd
      · rw [if_neg h]
        rcases ih b0 with ⟨b, hf, hm, hw, hall⟩
        refine ⟨b, hf, ?_, hw, ?_⟩
        · rcases hm with rfl | hm
          · exact Or.inl rfl
          · exact Or.inr (List.mem_cons_of_mem _ hm)
        · intro d hd
          rcases List.mem_cons.mp hd with rfl | hd
          · exact le_trans (not_lt.mp h) hw
          · exact hall d hd

theorem pickTop_spec (g : Graph) (L : ℕ → ℕ) (u : ℕ)
    (h : candidateLabels g L u ≠ []) :
    ∃ b, pickTop g L u = some b ∧ b ∈ candidateLabels g L u ∧
      ∀ c ∈ candidateLabels g L u, labelWeight g L u c ≤ labelWeight g L u b := by
  cases hcl : candidateLabels g L u with
  | nil => exact absurd hcl h
  | cons c cs =>
      rcases pickFold_spec (labelWeight g L u) cs c with ⟨b, hf, hm, hw, hall⟩
      refine ⟨b, ?_, ?_, ?_⟩
      · unfold pickTop
        rw [hcl, List.foldl_cons]
        exact hf
      · rcases hm with rfl | hm
        · exact List.mem_cons_self _ _
        · exact List.mem_cons_of_mem _ hm
      · intro d hd
        rcases List.mem_cons.mp hd with rfl | hd
        · exact hw
        · exact hall d hd

theorem labelWeight_of_not_candidate (g : Graph) (L : ℕ → ℕ) (u c : ℕ)
    (hc : c ∉ candidateLabels g L u) : labelWeight g L u c = 0 := by
  unfold labelWeight
  rw [List.countP_eq_zero]
  intro v hv hdec
  refine hc ?_
  unfold candidateLabels
  rw [List.mem_dedup]
  exact List.mem_map.mpr ⟨v, hv, of_decide_eq_true hdec⟩

theorem louvainMatched_mem (g : Graph) (u : ℕ) (hu : u ∈ louvainMatched g) :
    u ∈ g.nodes ∧ neighborRows g u ≠ [] := by
  unfold louvainMatched at hu
  rcases List.mem_filter.mp hu with ⟨h1, h2⟩
  refine ⟨h1, ?_⟩
  intro hnil
  rw [hnil] at h2
  simp at h2

theorem candidateLabels_ne_nil (g : Graph) (L : ℕ → ℕ) (u : ℕ)
    (h : neighborRows g u ≠ []) : candidateLabels g L u ≠ [] := by
  unfold candidateLabels
  intro hd
  rw [List.dedup_eq_nil] at hd
  exact h (List.map_eq_nil_iff.mp hd)

/-- C6 (amended): the community-detection stage initializes every node's
`community_id` to its own identifier and performs exactly five iterations
(the batch script's hardcoded count) with no early exit on stability; each
iteration simultaneously sets every matched node's label to a
maximum-weight label among its neighbor groups (both directions of
`FOLLOWS`, groups weighted by neighbor count), while nodes without
neighbors keep their label. -/
theorem louvain_stage_characterization (g : Graph) (L : ℕ → ℕ) (u : ℕ)
    (hu : u ∈ louvainMatched g) :
    louvainRun g = (louvainStep g)^[5] (fun v => v) ∧
    louvainStep g L u ∈ candidateLabels g L u ∧
    (∀ c, labelWeight g L u c ≤ labelWeight g L u (louvainStep g L u)) ∧
    (∀ x, x ∉ louvainMatched g → louvainStep g L x = L x) := by
  have hne : candidateLabels g L u ≠ [] :=
    candidateLabels_ne_nil g L u (louvainMatched_mem g u hu).2
  rcases pickTop_spec g L u hne with ⟨b, hb, hbm, hball⟩
  have hstep : louvainStep g L u = b := by
    unfold louvainStep
    rw [setAll_eq, if_pos hu, hb]
    rfl
  refine ⟨rfl, ?_, ?_, ?_⟩
  · rw [hstep]
    exact hbm
  · intro c
    rw [hstep]
    by_cases hc : c ∈ candidateLabels g L u
    · exact hball c hc
    · rw [labelWeight_of_not_candidate g L u c hc]
      exact Nat.zero_le _
  · intro x hx
    unfold louvainStep
    rw [setAll_eq, if_neg hx]

/-- Witness for C6's amended statement on `gSwap` with the initial (own id)
labeling at node `0`. -/
theorem louvain_stage_characterization_witness :
    0 ∈ louvainMatched gSwap ∧
    (louvainRun gSwap = (louvainStep gSwap)^[5] (fun v => v) ∧
      louvainStep gSwap (fun v => v) 0 ∈ candidateLabels gSwap (fun v => v) 0 ∧
      (∀ c, labelWeight gSwap (fun v => v) 0 c ≤
        labelWeight gSwap (fun v => v) 0 (louvainStep gSwap (fun v => v) 0)) ∧
      (∀ x, x ∉ louvainMatched gSwap → louvainStep gSwap (fun v => v) x = (fun v => v) x)) :=
  ⟨by decide, louvain_stage_characterization gSwap (fun v => v) 0 (by decide)⟩

/-- Counterexample for C6: on `gSwap` (two users joined by one follow
edge), running the batch script's five iterations swaps the two labels
(node `0` ends with label `1`), while the claimed ten iterations of the
same transition would swap them back (node `0` would end with label `0`);
the fixed iteration counts five and ten give different results. -/
theorem louvain_iteration_count_counterexample :
    louvainRun gSwap 0 = 1 ∧ louvainClaimRun gSwap 0 = 0 ∧
      ¬ louvainRun gSwap 0 = louvainClaimRun gSwap 0 := by decide

theorem bridgedCommunities_gStar : bridgedCommunities gStar cmOwn 0 = 6 := by decide

/-- C1 evaluation: on `gStar` (node `0` adjacent to six users in six
distinct foreign communities, with `pagerank` and `betweenness_centrality`
present), the bottleneck query writes `bridge_score(0) = 6/5 > 1` — the
`max(5)` aggregate is the constant `5` and the bridged-community count is
not capped, contradicting the code's own `Cap at 5 communities` comment —
while the claimed capped value `min(6, 5)/5` equals `1`. -/
theorem bridge_score_uncapped :
    bridgedCommunities gStar cmOwn 0 = 6 ∧
    bottleneckStageBridge gStar attrOne attrOne cmOwn noScore 0 = some (6/5) ∧
    (1 : ℚ) < 6/5 ∧
    bridgeScoreClaim gStar cmOwn 0 = 1 := by
  refine ⟨bridgedCommunities_gStar, ?_, by norm_num, ?_⟩
  · unfold bottleneckStageBridge
    rw [setAll_eq, if_pos (by decide : (0 : ℕ) ∈ bottleneckProcessed gStar attrOne attrOne)]
    unfold bridgeScoreOf
    rw [bridgedCommunities_gStar]
    norm_num
  · unfold bridgeScoreClaim
    rw [bridgedCommunities_gStar]
    norm_num

/-- Counterexample for C2: on the fresh graph `gFresh`, where no node has
`pagerank` or `betweenness_centrality`, running the bottleneck algorithm
does not fail: it returns status `completed` with zero nodes processed (no
`MissingDependency` error exists in the code), and no `bridge_score`,
`bottleneck_score` or `is_bottleneck` attribute is written. -/
theorem bottleneck_fresh_counterexample :
    (run_algorithm nameBottleneck (fun _ => bottleneckHandler gFresh noScore noScore)).1 =
      Except.ok ⟨nameBottleneck, statusCompleted, 0, some msgBottleneckDone⟩ ∧
    (run_algorithm nameBottleneck (fun _ => bottleneckHandler gFresh noScore noScore)).2 =
      [AlgoName.bottleneck] ∧
    bottleneckStageBridge gFresh noScore noScore noCm noScore 0 = none ∧
    bottleneckStageBridge gFresh noScore noScore noCm noScore 1 = none ∧
    bottleneckStageScore gFresh noScore noScore noCm noScore 0 = none ∧
    bottleneckStageScore gFresh noScore noScore noCm noScore 1 = none ∧
    bottleneckStageMark gFresh noScore noScore noCm noMark 0 = none ∧
    bottleneckStageMark gFresh noScore noScore noCm noMark 1 = none :=
  ⟨rfl, rfl, rfl, rfl, rfl, rfl, rfl, rfl⟩

/-- C2 (amended): a node missing `pagerank` or `betweenness_centrality` is
silently excluded by the bottleneck query's `IS NOT NULL` filter — none of
its `bridge_score`, `bottleneck_score`, `is_bottleneck` attributes is
written — and the endpoint reports status `completed` rather than raising
any missing-dependency error. -/
theorem bottleneck_missing_dep_skipped (g : Graph) (pr bw : ℕ → Option ℚ)
    (cm : ℕ → Option ℕ) (br bs : ℕ → Option ℚ) (ib : ℕ → Option Bool) (u : ℕ)
    (h : pr u = none ∨ bw u = none) :
    bottleneckStageBridge g pr bw cm br u = br u ∧
    bottleneckStageScore g pr bw cm bs u = bs u ∧
    bottleneckStageMark g pr bw cm ib u = ib u ∧
    ∃ r, (run_algorithm nameBottleneck (fun _ => bottleneckHandler g pr bw)).1 =
        Except.ok r ∧ r.status = statusCompleted := by
  have hnp : u ∉ bottleneckProcessed g pr bw := by
    intro hmem
    have h2 := (List.mem_filter.mp hmem).2
    rcases h with h | h <;> rw [h] at h2 <;> simp at h2
  refine ⟨?_, ?_, ?_, ⟨_, rfl, rfl⟩⟩
  · unfold bottleneckStageBridge
    rw [setAll_eq, if_neg hnp]
  · unfold bottleneckStageScore
    rw [setAll_eq, if_neg hnp]
  · unfold bottleneckStageMark
    rw [setAll_eq, if_neg hnp]

/-- Witness for C2's amended statement on `gFresh` at node `0`. -/
theorem bottleneck_missing_dep_skipped_witness :
    (noScore 0 = none ∨ noScore 0 = none) ∧
    (bottleneckStageBridge gFresh noScore noScore noCm noScore 0 = noScore 0 ∧
      bottleneckStageScore gFresh noScore noScore noCm noScore 0 = noScore 0 ∧
      bottleneckStageMark gFresh noScore noScore noCm noMark 0 = noMark 0 ∧
      ∃ r, (run_algorithm nameBottleneck
          (fun _ => bottleneckHandler gFresh noScore noScore)).1 =
        Except.ok r ∧ r.status = statusCompleted) :=
  ⟨Or.inl rfl,
   bottleneck_missing_dep_skipped gFresh noScore noScore noCm noScore noScore noMark 0
     (Or.inl rfl)⟩

theorem normScore_eq_spec (g : Graph) (f : ℕ → Option ℚ) (u : ℕ) (x : ℚ)
    (hu : u ∈ g.nodes) (hx : f u = some x) (hn : ∀ v q, f v = some q → 0 ≤ q) :
    normScore (maxAttr g f) x = normScoreSpec ((maxAttr g f).getD 0) x := by
  have hxmem : x ∈ g.nodes.filterMap f := List.mem_filterMap.mpr ⟨u, hu, hx⟩
  cases hm : maxAttr g f with
  | none =>
      unfold maxAttr at hm
      rw [List.max?_eq_none_iff] at hm
      rw [hm] at hxmem
      cases hxmem
  | some m =>
      have hmm : m ∈ g.nodes.filterMap f := List.max?_mem max_choice hm
      rcases List.mem_filterMap.mp hmm with ⟨v, _, hv⟩
      have hm0 : 0 ≤ m := hn v m hv
      unfold normScore normScoreSpec
      simp only [Option.getD_some]
      by_cases h0 : 0 < m
      · rw [if_pos h0, if_neg (ne_of_gt h0)]
      · have hz : m = 0 := le_antisymm (not_lt.mp h0) hm0
        rw [if_neg h0, hz, if_pos rfl]

theorem attrOne_nonneg : ∀ v q, attrOne v = some q → 0 ≤ q := by
  intro v q h
  unfold attrOne at h
  injection h with h1
  rw [← h1]
  norm_num

/-- C5: for every node processed by the bottleneck query, the written
`bottleneck_score` equals `0.4 * normBetweenness + 0.3 * normPagerank +
0.3 * bridge_score(u)`, where each normalized value is the node's attribute
divided by the global maximum of that attribute (`0` if that maximum is
`0`) and `bridge_score(u)` is the bridge score the same query writes. -/
theorem bottleneck_score_formula (g : Graph) (pr bw : ℕ → Option ℚ) (cm : ℕ → Option ℕ)
    (br bs : ℕ → Option ℚ) (u : ℕ) (p b : ℚ) (hu : u ∈ g.nodes)
    (hp : pr u = some p) (hb : bw u = some b)
    (hprn : ∀ v q, pr v = some q → 0 ≤ q) (hbwn : ∀ v q, bw v = some q → 0 ≤ q) :
    bottleneckStageBridge g pr bw cm br u = some (bridgeScoreOf g cm u) ∧
    bottleneckStageScore g pr bw cm bs u =
      some (0.4 * normScoreSpec ((maxAttr g bw).getD 0) b +
            0.3 * normScoreSpec ((maxAttr g pr).getD 0) p +
            0.3 * bridgeScoreOf g cm u) := by
  have hproc : u ∈ bottleneckProcessed g pr bw := by
    unfold bottleneckProcessed
    rw [List.mem_filter]
    exact ⟨hu, by rw [hp, hb]; rfl⟩
  constructor
  · unfold bottleneckStageBridge
    rw [setAll_eq, if_pos hproc]
  · unfold bottleneckStageScore
    rw [setAll_eq, if_pos hproc]
    unfold bottleneckScoreOf
    rw [hp, hb]
    simp only [Option.getD_some]
    rw [normScore_eq_spec g bw u b hu hb hbwn, normScore_eq_spec g pr u p hu hp hprn]

/-- Witness for C5 on `gPair` with both attributes set to `1` everywhere. -/
theorem bottleneck_score_formula_witness :
    (0 ∈ gPair.nodes ∧ attrOne 0 = some 1) ∧
    (bottleneckStageBridge gPair attrOne attrOne cmOwn noScore 0 =
        some (bridgeScoreOf gPair cmOwn 0) ∧
      bottleneckStageScore gPair attrOne attrOne cmOwn noScore 0 =
        some (0.4 * normScoreSpec ((maxAttr gPair attrOne).getD 0) 1 +
              0.3 * normScoreSpec ((maxAttr gPair attrOne).getD 0) 1 +
              0.3 * bridgeScoreOf gPair cmOwn 0)) :=
  ⟨⟨by decide, rfl⟩,
   bottleneck_score_formula gPair attrOne attrOne cmOwn noScore noScore 0 1 1
     (by decide) rfl rfl attrOne_nonneg attrOne_nonneg⟩
